import Mathlib

/-!
Shallow embedding of the ch8asm assembler (CHIP-8 assembler written in Rust)
and verification of its specification.

Modelling conventions:
* Rust `&str` / `String` values are modelled as `List Char` (named `Str`).
  All inputs of interest are ASCII, for which Rust's byte indexing and the
  char indexing used here coincide; where the Rust code checks a byte
  length (`str::len`) we compute the UTF-8 byte length explicitly.
* Machine integers (`u8`, `u16`, `usize`) are modelled as `Nat`.  Every
  arithmetic operation performed by the source is bounded well below the
  corresponding type's range (register values are at most 0xF, parsed
  numerics at most 0xFFFF), so no wrap-around modelling is required; the
  parsing functions enforce the `u16` range exactly as
  `u16::from_str_radix` does.
* Fallible Rust functions returning `Result` are modelled with `Except`
  when they cannot panic, and with the three-valued `PRes` (ok / err /
  panicked) when a `panic!`, `expect` or out-of-bounds index is reachable.
* The source's `PreprocessedInstruction` enum (`Unchanged` borrowed view /
  `Changed` owned string) derefs to `str` everywhere it is consumed, so
  both variants are observationally the string they carry; lines are
  modelled directly as `Str`.
-/

/-- A Rust string slice, modelled as its list of characters. -/
abbrev Str := List Char

/-- Convert a Lean string literal to the `Str` model. -/
def S (s : String) : Str := s.toList

/-- Result of a Rust computation that may return a value, return an error,
or panic (`panic!`, `expect`, out-of-bounds indexing). -/
inductive PRes (ε : Type) (α : Type) where
  | ok (v : α)
  | err (e : ε)
  | panicked
deriving DecidableEq

/-! ## String helpers (models of Rust `str` methods) -/

/-- Model of Rust `char::is_whitespace` restricted to the characters that
occur in assembly text (ASCII whitespace); `Char.isWhitespace` covers
space, tab, CR and LF exactly as Rust does on ASCII input. -/
def isWs (c : Char) : Bool := c.isWhitespace

/-- Model of Rust `str::starts_with(pat)` for a string pattern. -/
def startsWith : Str → Str → Bool
  | [], _ => true
  | _, [] => false
  | p :: ps, c :: cs => p == c && startsWith ps cs

/-- Model of Rust `str::strip_prefix(pat)` (drop `p` from the front of `s`
when it is a prefix). -/
def stripPre : Str → Str → Option Str
  | [], s => some s
  | _, [] => none
  | p :: ps, c :: cs => if p == c then stripPre ps cs else none

/-- Model of Rust `str::ends_with(c)` for a char pattern. -/
def endsWithChar (c : Char) (s : Str) : Bool := s.getLast? == some c

/-- Model of Rust `str::trim_end_matches(c)`: remove every trailing
occurrence of `c`. -/
def trimEndMatches (c : Char) (s : Str) : Str :=
  (s.reverse.dropWhile (fun x => x == c)).reverse

/-- Model of Rust `str::trim`: strip leading and trailing whitespace. -/
def rustTrim (s : Str) : Str :=
  ((s.dropWhile isWs).reverse.dropWhile isWs).reverse

/-- Accumulator-based worker for `splitWhitespace`. -/
def splitWsAux : Str → Str → List Str
  | [], acc => if acc.isEmpty then [] else [acc.reverse]
  | c :: rest, acc =>
    if isWs c then
      if acc.isEmpty then splitWsAux rest []
      else acc.reverse :: splitWsAux rest []
    else splitWsAux rest (c :: acc)

/-- Model of Rust `str::split_whitespace` (maximal non-whitespace runs,
empty pieces skipped). -/
def splitWhitespace (s : Str) : List Str := splitWsAux s []

/-- Split a string at every newline character, keeping empty pieces
(model of the line structure seen by Rust `str::lines`; the empty pieces
are removed by the cleaning phase exactly as in the source). -/
def splitNLAux : Str → Str → List Str
  | [], acc => [acc.reverse]
  | c :: rest, acc =>
    if c == '\n' then acc.reverse :: splitNLAux rest []
    else splitNLAux rest (c :: acc)

/-- Split an input text into lines at `'\n'`. -/
def splitLines (s : Str) : List Str := splitNLAux s []

/-- Index of the first occurrence of a character, model of `str::find(c)`. -/
def idxOfChar (c : Char) : Str → Option Nat
  | [] => none
  | x :: rest => if x == c then some 0 else (idxOfChar c rest).map (· + 1)

/-- Model of `str::join(" ")` over a token list. -/
def joinSpace : List Str → Str
  | [] => []
  | [t] => t
  | t :: rest => t ++ (' ' :: joinSpace rest)

/-- UTF-8 byte length of a string (Rust `str::len`). -/
def utf8Len (s : Str) : Nat := (s.map Char.utf8Size).sum

/-! ## Number parsing and rendering -/

/-- Value of an ASCII digit character in any radix up to 36, as accepted by
Rust `char::to_digit` (used by `from_str_radix`). -/
def digVal (c : Char) : Option Nat :=
  if '0' ≤ c ∧ c ≤ '9' then some (c.toNat - 48)
  else if 'a' ≤ c ∧ c ≤ 'z' then some (c.toNat - 87)
  else if 'A' ≤ c ∧ c ≤ 'Z' then some (c.toNat - 55)
  else none

/-- Value of a single hexadecimal digit character, as computed by
`u8::from_str_radix(s, 16)` on a one-character string. -/
def hexVal (c : Char) : Option Nat :=
  match digVal c with
  | some v => if v < 16 then some v else none
  | none => none

/-- Model of `u16::from_str_radix(s, radix)` (and of `str::parse::<u16>`
for radix 10): an optional leading `+`, then a non-empty run of digits of
the radix; overflow past `u16::MAX` is an error. -/
def parseRadixU16 (radix : Nat) (s : Str) : Option Nat :=
  let ds := match s with
    | '+' :: r => r
    | _ => s
  if ds.isEmpty then none
  else if ds.all (fun c => match digVal c with
      | some v => decide (v < radix)
      | none => false) then
    let v := ds.foldl (fun acc c => acc * radix + ((digVal c).getD 0)) 0
    if v ≤ 0xFFFF then some v else none
  else none

/-- Model of `str::parse::<usize>`: optional `+` sign then decimal digits;
usize overflow (64-bit) is an error. -/
def parseUsize (s : Str) : Option Nat :=
  let ds := match s with
    | '+' :: r => r
    | _ => s
  if ds.isEmpty then none
  else if ds.all Char.isDigit then
    let v := ds.foldl (fun acc c => acc * 10 + (c.toNat - 48)) 0
    if v < 2 ^ 64 then some v else none
  else none

/-- Decimal digit character. -/
def decChar (d : Nat) : Char := Char.ofNat (48 + d)

/-- Uppercase hexadecimal digit character (as produced by `{:X}`). -/
def hexUpChar (d : Nat) : Char :=
  if d < 10 then Char.ofNat (48 + d) else Char.ofNat (55 + d)

/-- Lowercase hexadecimal digit character (as produced by `{:x}`). -/
def hexLoChar (d : Nat) : Char :=
  if d < 10 then Char.ofNat (48 + d) else Char.ofNat (87 + d)

/-- Fuel-driven digit expansion; the fuel `n + 1` always suffices since
`n / b` shrinks strictly at every step. -/
def digitsAux (b : Nat) (f : Nat → Char) : Nat → Nat → Str
  | 0, _ => []
  | fuel + 1, n =>
    if n < b then [f n] else digitsAux b f fuel (n / b) ++ [f (n % b)]

/-- Decimal rendering of a natural number (`usize::to_string`). -/
def natToDec (n : Nat) : Str := digitsAux 10 decChar (n + 1) n

/-- Uppercase hexadecimal rendering (`format!("{:X}", n)`, no prefix). -/
def natToHexUp (n : Nat) : Str := digitsAux 16 hexUpChar (n + 1) n

/-- Lowercase hexadecimal rendering (`format!("{:x}", n)`, no prefix). -/
def natToHexLo (n : Nat) : Str := digitsAux 16 hexLoChar (n + 1) n

/-- Decidable equality for `Except`, needed to settle concrete runs of the
parsing functions by `decide`. -/
instance exceptDecEq {ε α : Type} [DecidableEq ε] [DecidableEq α] :
    DecidableEq (Except ε α)
  | .ok a, .ok b =>
    if h : a = b then isTrue (by rw [h])
    else isFalse (by intro hc; cases hc; exact h rfl)
  | .ok _, .error _ => isFalse (by intro h; cases h)
  | .error _, .ok _ => isFalse (by intro h; cases h)
  | .error a, .error b =>
    if h : a = b then isTrue (by rw [h])
    else isFalse (by intro hc; cases hc; exact h rfl)

/-! ## Operand parser (src/assemble/parse.rs) -/

/-- `AsmArgument` from src/assemble/parse.rs. -/
inductive AsmArgument where
  | Numeric (n : Nat)
  | Register (r : Nat)
  | AnyKey
  | IPointer
  | IRange
  | DelayTimer
  | SoundTimer
  | Sprite
  | Bcd
deriving DecidableEq

/-- `AsmArgParseError` from src/assemble/parse.rs.  The source's
`NumberParsingError` (a `ParseIntError` plus the offending token) is
collapsed into `NotANumber` carrying the token, matching the `#[from]`
conversion. -/
inductive AsmArgParseError where
  | InvalidRegister (s : Str)
  | InvalidAddress (s : Str)
  | InvalidByte (s : Str)
  | InvalidNibble (s : Str)
  | InvalidRaw (s : Str)
  | NotANumber (s : Str)
deriving DecidableEq

/-- `parse_numeric_asm_arg` from src/assemble/parse.rs.  The register
branch checks the byte length (`arg.len() != 2`); when it is 2 and the
first char is `V`/`v` (one byte), the second char is a single byte, so the
byte slice `arg[1..2]` is exactly that character. -/
def parse_numeric_asm_arg (arg : Str) : Except AsmArgParseError AsmArgument :=
  if arg.head? == some 'V' || arg.head? == some 'v' then
    if utf8Len arg ≠ 2 then .error (.InvalidRegister arg)
    else
      match arg.get? 1 with
      | some c =>
        match hexVal c with
        | some v => .ok (.Register v)
        | none => .error (.NotANumber arg)
      | none => .error (.NotANumber arg)
  else
    match stripPre (S ("0x")) arg with
    | some hexNum =>
      match parseRadixU16 16 hexNum with
      | some n => .ok (.Numeric n)
      | none => .error (.NotANumber arg)
    | none =>
      match stripPre (S ("0b")) arg with
      | some binNum =>
        match parseRadixU16 2 binNum with
        | some n => .ok (.Numeric n)
        | none => .error (.NotANumber arg)
      | none =>
        match parseRadixU16 10 arg with
        | some n => .ok (.Numeric n)
        | none => .error (.NotANumber arg)

/-- `parse_asm_arg` from src/assemble/parse.rs. -/
def parse_asm_arg (arg : Str) : Except AsmArgParseError AsmArgument :=
  if arg == S ("K") || arg == S ("k") then .ok .AnyKey
  else if arg == S ("I") || arg == S ("i") then .ok .IPointer
  else if arg == S ("[I]") || arg == S ("[i]") then .ok .IRange
  else if arg == S ("DT") || arg == S ("Dt") || arg == S ("dT") || arg == S ("dt") then
    .ok .DelayTimer
  else if arg == S ("ST") || arg == S ("St") || arg == S ("sT") || arg == S ("st") then
    .ok .SoundTimer
  else if arg == S ("F") || arg == S ("f") then .ok .Sprite
  else if arg == S ("B") || arg == S ("b") then .ok .Bcd
  else parse_numeric_asm_arg arg

/-- `parse_asm_args` from src/assemble/parse.rs: parse each token,
stopping at the first error. -/
def parse_asm_args : List Str → Except AsmArgParseError (List AsmArgument)
  | [] => .ok []
  | arg :: rest =>
    match parse_asm_arg arg with
    | .error e => .error e
    | .ok a =>
      match parse_asm_args rest with
      | .error e => .error e
      | .ok as' => .ok (a :: as')

/-- `parse_valid_addr` from src/assemble/parse.rs; panics (via `panic!`)
on a non-`Numeric` argument. -/
def parse_valid_addr (arg : AsmArgument) : PRes AsmArgParseError Nat :=
  match arg with
  | .Numeric addr =>
    if addr ≤ 0xFFF then .ok addr else .err (.InvalidAddress (natToDec addr))
  | _ => .panicked

/-- `parse_valid_byte` from src/assemble/parse.rs; panics on a
non-`Numeric` argument. -/
def parse_valid_byte (arg : AsmArgument) : PRes AsmArgParseError Nat :=
  match arg with
  | .Numeric byte =>
    if byte ≤ 0xFF then .ok byte else .err (.InvalidByte (natToDec byte))
  | _ => .panicked

/-- `parse_valid_nibble` from src/assemble/parse.rs; panics on a
non-`Numeric` argument. -/
def parse_valid_nibble (arg : AsmArgument) : PRes AsmArgParseError Nat :=
  match arg with
  | .Numeric nibble =>
    if nibble ≤ 0xF then .ok nibble else .err (.InvalidNibble (natToDec nibble))
  | _ => .panicked

/-- `parse_raw` from src/assemble/parse.rs. -/
def parse_raw (tokens : List Str) : Except AsmArgParseError Nat :=
  match tokens with
  | [t] =>
    if startsWith (S ("0x")) t then
      match stripPre (S ("0x")) t with
      | some num =>
        match parseRadixU16 16 num with
        | some raw => .ok raw
        | none => .error (.NotANumber (joinSpace tokens))
      | none => .error (.InvalidRaw (joinSpace tokens))
    else .error (.InvalidRaw (joinSpace tokens))
  | _ => .error (.InvalidRaw (joinSpace tokens))


/-! ## Instruction encoder (src/assemble.rs) -/

/-- `AssembleError` from src/assemble.rs. -/
inductive AssembleError where
  | UnknownOp
  | MissingArgs
  | ExtraArgs
  | InvalidArg
deriving DecidableEq

/-- Outcome of an encoder function. -/
abbrev ARes := PRes AssembleError Nat

/-- Propagate the `?` operator on `parse_asm_args` (its `From` impl turns
every `AsmArgParseError` into `InvalidArg`). -/
def bindArgs (r : Except AsmArgParseError (List AsmArgument))
    (k : List AsmArgument → ARes) : ARes :=
  match r with
  | .error _ => .err .InvalidArg
  | .ok args => k args

/-- Propagate the `?` operator on the range-checking projections
(`parse_valid_addr` and friends), which can also panic. -/
def bindNum (r : PRes AsmArgParseError Nat) (k : Nat → ARes) : ARes :=
  match r with
  | .panicked => .panicked
  | .err _ => .err .InvalidArg
  | .ok v => k v

/-- `assemble_jp` from src/assemble.rs. -/
def assemble_jp (tokens : List Str) : ARes :=
  bindArgs (parse_asm_args (tokens.drop 1)) fun args =>
    match args with
    | [a] => bindNum (parse_valid_addr a) fun addr => .ok (0x1000 + addr)
    | [a, b] =>
      match a with
      | .Register 0 => bindNum (parse_valid_addr b) fun addr => .ok (0xB000 + addr)
      | _ => .err .InvalidArg
    | [] => .err .MissingArgs
    | _ => .err .ExtraArgs

/-- `assemble_ld` from src/assemble.rs.  The two-argument indexing
`args[0]`/`args[1]` is total here because `parse_asm_args` returns one
argument per token; the catch-all models the out-of-bounds panic. -/
def assemble_ld (tokens : List Str) : ARes :=
  if tokens.length < 3 then .err .MissingArgs
  else if tokens.length > 3 then .err .ExtraArgs
  else
    bindArgs (parse_asm_args (tokens.drop 1)) fun args =>
      match args with
      | [a, b] =>
        match a, b with
        | .Register vx, .Register vy => .ok (0x8000 + vx * 256 + vy * 16)
        | .Register vx, .Numeric _ =>
          bindNum (parse_valid_byte b) fun byte => .ok (0x6000 + vx * 256 + byte)
        | .IPointer, .Numeric _ =>
          bindNum (parse_valid_addr b) fun addr => .ok (0xA000 + addr)
        | .Register vx, .DelayTimer => .ok (0xF007 + vx * 256)
        | .Register vx, .AnyKey => .ok (0xF00A + vx * 256)
        | .DelayTimer, .Register vx => .ok (0xF015 + vx * 256)
        | .SoundTimer, .Register vx => .ok (0xF018 + vx * 256)
        | .Sprite, .Register vx => .ok (0xF029 + vx * 256)
        | .Bcd, .Register vx => .ok (0xF033 + vx * 256)
        | .IRange, .Register vx => .ok (0xF055 + vx * 256)
        | .Register vx, .IRange => .ok (0xF065 + vx * 256)
        | _, _ => .err .InvalidArg
      | _ => .panicked

/-- `assemble_sys` from src/assemble.rs. -/
def assemble_sys (tokens : List Str) : ARes :=
  if tokens.length < 2 then .err .MissingArgs
  else if tokens.length > 2 then .err .ExtraArgs
  else
    bindArgs (parse_asm_args (tokens.drop 1)) fun args =>
      match args with
      | [a] =>
        match a with
        | .Numeric _ => bindNum (parse_valid_addr a) fun addr => .ok (0x0000 + addr)
        | _ => .err .InvalidArg
      | _ => .panicked

/-- `assemble_call` from src/assemble.rs. -/
def assemble_call (tokens : List Str) : ARes :=
  if tokens.length < 2 then .err .MissingArgs
  else if tokens.length > 2 then .err .ExtraArgs
  else
    bindArgs (parse_asm_args (tokens.drop 1)) fun args =>
      match args with
      | [a] =>
        match a with
        | .Numeric _ => bindNum (parse_valid_addr a) fun addr => .ok (0x2000 + addr)
        | _ => .err .InvalidArg
      | _ => .panicked

/-- `assemble_se` from src/assemble.rs. -/
def assemble_se (tokens : List Str) : ARes :=
  if tokens.length < 3 then .err .MissingArgs
  else if tokens.length > 3 then .err .ExtraArgs
  else
    bindArgs (parse_asm_args (tokens.drop 1)) fun args =>
      match args with
      | [a, b] =>
        match a, b with
        | .Register vx, .Numeric _ =>
          bindNum (parse_valid_byte b) fun byte => .ok (0x3000 + vx * 256 + byte)
        | .Register vx, .Register vy => .ok (0x5000 + vx * 256 + vy * 16)
        | _, _ => .err .InvalidArg
      | _ => .panicked

/-- `assemble_sne` from src/assemble.rs. -/
def assemble_sne (tokens : List Str) : ARes :=
  if tokens.length < 3 then .err .MissingArgs
  else if tokens.length > 3 then .err .ExtraArgs
  else
    bindArgs (parse_asm_args (tokens.drop 1)) fun args =>
      match args with
      | [a, b] =>
        match a, b with
        | .Register vx, .Numeric _ =>
          bindNum (parse_valid_byte b) fun byte => .ok (0x4000 + vx * 256 + byte)
        | .Register vx, .Register vy => .ok (0x9000 + vx * 256 + vy * 16)
        | _, _ => .err .InvalidArg
      | _ => .panicked

/-- `assemble_add` from src/assemble.rs. -/
def assemble_add (tokens : List Str) : ARes :=
  if tokens.length < 3 then .err .MissingArgs
  else if tokens.length > 3 then .err .ExtraArgs
  else
    bindArgs (parse_asm_args (tokens.drop 1)) fun args =>
      match args with
      | [a, b] =>
        match a, b with
        | .Register vx, .Numeric _ =>
          bindNum (parse_valid_byte b) fun byte => .ok (0x7000 + vx * 256 + byte)
        | .Register vx, .Register vy => .ok (0x8004 + vx * 256 + vy * 16)
        | .IPointer, .Register vx => .ok (0xF01E + vx * 256)
        | _, _ => .err .InvalidArg
      | _ => .panicked

/-- Common shape of `assemble_or`/`and`/`xor`/`sub`/`subn`: two register
operands, fixed base opcode. -/
def assembleRegReg (base : Nat) (tokens : List Str) : ARes :=
  if tokens.length < 3 then .err .MissingArgs
  else if tokens.length > 3 then .err .ExtraArgs
  else
    bindArgs (parse_asm_args (tokens.drop 1)) fun args =>
      match args with
      | [a, b] =>
        match a, b with
        | .Register vx, .Register vy => .ok (base + vx * 256 + vy * 16)
        | _, _ => .err .InvalidArg
      | _ => .panicked

/-- `assemble_or` from src/assemble.rs (pattern `8xy1`). -/
def assemble_or (tokens : List Str) : ARes := assembleRegReg 0x8001 tokens

/-- `assemble_and` from src/assemble.rs (pattern `8xy2`). -/
def assemble_and (tokens : List Str) : ARes := assembleRegReg 0x8002 tokens

/-- `assemble_xor` from src/assemble.rs (pattern `8xy3`). -/
def assemble_xor (tokens : List Str) : ARes := assembleRegReg 0x8003 tokens

/-- `assemble_sub` from src/assemble.rs (pattern `8xy5`). -/
def assemble_sub (tokens : List Str) : ARes := assembleRegReg 0x8005 tokens

/-- `assemble_subn` from src/assemble.rs (pattern `8xy7`). -/
def assemble_subn (tokens : List Str) : ARes := assembleRegReg 0x8007 tokens

/-- Common shape of `assemble_shr`/`assemble_shl`: one register operand
with an optional second register. -/
def assembleShift (base : Nat) (tokens : List Str) : ARes :=
  bindArgs (parse_asm_args (tokens.drop 1)) fun args =>
    match args with
    | [a] =>
      match a with
      | .Register vx => .ok (base + vx * 256)
      | _ => .err .InvalidArg
    | [a, b] =>
      match a, b with
      | .Register vx, .Register vy => .ok (base + vx * 256 + vy * 16)
      | _, _ => .err .InvalidArg
    | [] => .err .MissingArgs
    | _ => .err .ExtraArgs

/-- `assemble_shr` from src/assemble.rs (pattern `8xy6`). -/
def assemble_shr (tokens : List Str) : ARes := assembleShift 0x8006 tokens

/-- `assemble_shl` from src/assemble.rs (pattern `8xyE`). -/
def assemble_shl (tokens : List Str) : ARes := assembleShift 0x800E tokens

/-- `assemble_rnd` from src/assemble.rs (pattern `Cxkk`). -/
def assemble_rnd (tokens : List Str) : ARes :=
  if tokens.length < 3 then .err .MissingArgs
  else if tokens.length > 3 then .err .ExtraArgs
  else
    bindArgs (parse_asm_args (tokens.drop 1)) fun args =>
      match args with
      | [a, b] =>
        match a, b with
        | .Register vx, .Numeric _ =>
          bindNum (parse_valid_byte b) fun byte => .ok (0xC000 + vx * 256 + byte)
        | _, _ => .err .InvalidArg
      | _ => .panicked

/-- `assemble_drw` from src/assemble.rs.  NOTE: the source literally
computes `0xC000 + (vx << 8) + (vy << 4) + nibble`, although its own
comment documents the pattern as `Dxyn`. -/
def assemble_drw (tokens : List Str) : ARes :=
  if tokens.length < 4 then .err .MissingArgs
  else if tokens.length > 4 then .err .ExtraArgs
  else
    bindArgs (parse_asm_args (tokens.drop 1)) fun args =>
      match args with
      | [a, b, c] =>
        match a, b, c with
        | .Register vx, .Register vy, .Numeric _ =>
          bindNum (parse_valid_nibble c) fun nibble =>
            .ok (0xC000 + vx * 256 + vy * 16 + nibble)
        | _, _, _ => .err .InvalidArg
      | _ => .panicked

/-- `assemble_skp` from src/assemble.rs (pattern `Ex9E`). -/
def assemble_skp (tokens : List Str) : ARes :=
  if tokens.length < 2 then .err .MissingArgs
  else if tokens.length > 2 then .err .ExtraArgs
  else
    bindArgs (parse_asm_args (tokens.drop 1)) fun args =>
      match args with
      | [a] =>
        match a with
        | .Register vx => .ok (0xE09E + vx * 256)
        | _ => .err .InvalidArg
      | _ => .panicked

/-- `assemble_sknp` from src/assemble.rs (pattern `ExA1`). -/
def assemble_sknp (tokens : List Str) : ARes :=
  if tokens.length < 2 then .err .MissingArgs
  else if tokens.length > 2 then .err .ExtraArgs
  else
    bindArgs (parse_asm_args (tokens.drop 1)) fun args =>
      match args with
      | [a] =>
        match a with
        | .Register vx => .ok (0xE0A1 + vx * 256)
        | _ => .err .InvalidArg
      | _ => .panicked

/-- The `match` over the first token in `assemble_instruction`, written as
the source lists it: each arm enumerates exactly the spellings that appear
in the Rust `match`. -/
def dispatchOp (first : Str) (tokens : List Str) : ARes :=
  if first == S ("CLS") then .ok 0x00E0
  else if first == S ("RET") then .ok 0x00EE
  else if [S ("JP"), S ("jp"), S ("jP"), S ("Jp")].contains first then
    assemble_jp tokens
  else if [S ("LD"), S ("ld"), S ("lD"), S ("Ld")].contains first then
    assemble_ld tokens
  else if [S ("SYS"), S ("sYs"), S ("Sys"), S ("syS"), S ("SYs"), S ("sYS"),
      S ("SyS"), S ("sys")].contains first then
    assemble_sys tokens
  else if [S ("CALL"), S ("call")].contains first then
    assemble_call tokens
  else if [S ("SE"), S ("sE"), S ("Se"), S ("se")].contains first then
    assemble_se tokens
  else if [S ("SNE"), S ("snE"), S ("sNe"), S ("Sne"), S ("SNe"), S ("SnE"),
      S ("sNE"), S ("sne")].contains first then
    assemble_sne tokens
  else if [S ("ADD"), S ("adD"), S ("aDd"), S ("Add"), S ("ADd"), S ("AdD"),
      S ("aDD"), S ("add")].contains first then
    assemble_add tokens
  else if [S ("OR"), S ("or"), S ("oR"), S ("Or")].contains first then
    assemble_or tokens
  else if [S ("AND"), S ("anD"), S ("aNd"), S ("And"), S ("ANd"), S ("AnD"),
      S ("aND"), S ("and")].contains first then
    assemble_and tokens
  else if [S ("XOR"), S ("xoR"), S ("xOr"), S ("Xor"), S ("XOr"), S ("XoR"),
      S ("xOR"), S ("xor")].contains first then
    assemble_xor tokens
  else if [S ("SUB"), S ("suB"), S ("sUb"), S ("Sub"), S ("SUb"), S ("SuB"),
      S ("sUB"), S ("sub")].contains first then
    assemble_sub tokens
  else if [S ("SUBN"), S ("subn")].contains first then
    assemble_subn tokens
  else if [S ("SHR"), S ("shR"), S ("sHr"), S ("Shr"), S ("SHr"), S ("ShR"),
      S ("sHR"), S ("shr")].contains first then
    assemble_shr tokens
  else if [S ("SHL"), S ("shL"), S ("sHl"), S ("Shl"), S ("SHl"), S ("ShL"),
      S ("sHL"), S ("shl")].contains first then
    assemble_shl tokens
  else if [S ("RND"), S ("rnD"), S ("rNd"), S ("Rnd"), S ("RNd"), S ("RnD"),
      S ("rND"), S ("rnd")].contains first then
    assemble_rnd tokens
  else if [S ("DRW"), S ("drW"), S ("dRw"), S ("Drw"), S ("DRw"), S ("DrW"),
      S ("dRW"), S ("drw")].contains first then
    assemble_drw tokens
  else if [S ("SKP"), S ("skP"), S ("sKp"), S ("Skp"), S ("SKp"), S ("SkP"),
      S ("sKP"), S ("skp")].contains first then
    assemble_skp tokens
  else if [S ("SKNP"), S ("sknp")].contains first then
    assemble_sknp tokens
  else if startsWith (S ("0x")) first && tokens.length == 1 then
    match parse_raw tokens with
    | .ok raw => .ok raw
    | .error _ => .err .InvalidArg
  else .err .UnknownOp

/-- `assemble_instruction` from src/assemble.rs: split on whitespace, trim
one run of trailing commas from each token, dispatch on the first token;
an empty token list hits the `expect` (a panic). -/
def assemble_instruction (inst : Str) : ARes :=
  let tokens := (splitWhitespace inst).map (trimEndMatches ',')
  match tokens with
  | [] => .panicked
  | first :: _ => dispatchOp first tokens


/-! ## Preprocessing (src/preprocess.rs) -/

/-- `RESERVED_WORDS` from src/preprocess.rs: the 20 architecture mnemonics
plus `alias` (and nothing else). -/
def RESERVED_WORDS : List Str :=
  [S ("CLS"), S ("RET"), S ("SYS"), S ("JP"), S ("CALL"), S ("SE"), S ("LD"),
   S ("ADD"), S ("OR"), S ("AND"), S ("XOR"), S ("SUB"), S ("SHR"), S ("SHL"),
   S ("SUBN"), S ("SNE"), S ("RND"), S ("DRW"), S ("SKP"), S ("SKNP"),
   S ("alias")]

/-- `PreprocessingError` from src/preprocess.rs. -/
inductive PreprocessingError where
  | TooManyAliasArgs (l : Str)
  | TooFewAliasArgs (l : Str)
  | ReservedAlias (l : Str)
  | ReusedAlias (l : Str)
  | TooManySpriteArgs (l : Str)
  | TooFewSpriteArgs (l : Str)
  | UnclosedSprite (l : Str)
  | OversizedSprite (l : Str)
  | InvalidSpriteByte (e : AsmArgParseError)
  | ReservedLabel (l : Str)
  | InvalidLabel (l : Str)
  | InvalidOffset (l : Str)
  | ReusedLabel (l : Str)
deriving DecidableEq

/-- The line-cleaning phase at the top of `preprocess`: split into lines,
trim, drop blank lines and `;` comment lines, cut trailing comments. -/
def clean (input : Str) : List Str :=
  ((((splitLines input).map rustTrim).filter (fun l => !l.isEmpty)).filter
      (fun l => !(startsWith (S (";")) l))).map
    (fun l =>
      match idxOfChar ';' l with
      | none => l
      | some i => l.take i)

/-- The declaration-collecting loop of `evaluate_aliases`: walk the lines,
validate each line starting with `alias`, and build the alias map (new
entries are consed on; duplicates are rejected before insertion, so lookup
order is irrelevant). -/
def aliasScan : List Str → List (Str × Str) → Except PreprocessingError (List (Str × Str))
  | [], m => .ok m
  | l :: rest, m =>
    if startsWith (S ("alias")) l then
      let tokens := splitWhitespace l
      if tokens.length > 3 then .error (.TooManyAliasArgs l)
      else if tokens.length < 3 then .error (.TooFewAliasArgs l)
      else
        let key := trimEndMatches ',' (tokens.getD 1 [])
        if RESERVED_WORDS.contains key then .error (.ReservedAlias l)
        else if (m.lookup key).isSome then .error (.ReusedAlias l)
        else aliasScan rest ((key, tokens.getD 2 []) :: m)
    else aliasScan rest m

/-- The substitution step of `evaluate_aliases` on one line: rebuild the
line from its comma-trimmed tokens, substituting alias values, with a
leading space per token, then trim; an unchanged line keeps its original
text. -/
def aliasApply (m : List (Str × Str)) (l : Str) : Str :=
  let toks := (splitWhitespace l).map (trimEndMatches ',')
  if toks.any (fun t => (m.lookup t).isSome) then
    rustTrim (toks.foldl (fun acc t => acc ++ (' ' :: ((m.lookup t).getD t))) [])
  else l

/-- `evaluate_aliases` from src/preprocess.rs.  Every line starting with
`alias` that survives the scan is a valid declaration and is removed; if
no alias was declared the lines are returned untouched. -/
def evaluate_aliases (lines : List Str) :
    Except PreprocessingError (List Str) :=
  match aliasScan lines [] with
  | .error e => .error e
  | .ok m =>
    if m.isEmpty then .ok lines
    else
      .ok (((lines.filter (fun l => !(startsWith (S ("alias")) l))).map
        (aliasApply m)))

/-- Sequentially turn parsed sprite arguments into byte values with
`parse_valid_byte` (which panics on a non-numeric argument); a range
error surfaces as `InvalidSpriteByte`. -/
def bytesOf : List AsmArgument → PRes PreprocessingError (List Nat)
  | [] => .ok []
  | a :: rest =>
    match parse_valid_byte a with
    | .panicked => .panicked
    | .err e => .err (.InvalidSpriteByte e)
    | .ok b =>
      match bytesOf rest with
      | .panicked => .panicked
      | .err e => .err e
      | .ok bs => .ok (b :: bs)

/-- The byte-pairing of `process_sprite`: `chunks(2)` mapped to
`(chunk[0] << 8) + (chunk[1] or 0)`. -/
def pairRaws : List Nat → List Nat
  | [] => []
  | [b] => [b * 256]
  | b1 :: b2 :: rest => (b1 * 256 + b2) :: pairRaws rest

/-- `process_sprite` from src/preprocess.rs: parse the data lines between
the declaration (index `start`) and the `endsprite` line (index `stop`)
as bytes, pair them into words, and record the label change, the raw-word
changes (rendered `{:#X}`) and the removals for indices
`start + raws + 1 ..= stop`. -/
def process_sprite (lines : List Str) (start stop : Nat) :
    PRes PreprocessingError (List (Nat × Str) × List Nat) :=
  match parse_asm_args ((lines.drop (start + 1)).take (stop - (start + 1))) with
  | .error e => .err (.InvalidSpriteByte e)
  | .ok args =>
    match bytesOf args with
    | .panicked => .panicked
    | .err e => .err e
    | .ok bytes =>
      let raws := pairRaws bytes
      match lines.getD start [] |> stripPre (S ("sprite")) with
      | none => .panicked
      | some rest =>
        let lbl0 := rustTrim rest
        let lbl := if endsWithChar ':' lbl0 then lbl0 else lbl0 ++ [':']
        let changes :=
          (start, lbl) ::
            raws.enum.map (fun p => (start + 1 + p.1, S ("0x") ++ natToHexUp p.2))
        let thr := start + raws.length + 1
        .ok (changes, List.range' thr (stop + 1 - thr))

/-- Index (within a suffix of the line list) of the first line equal to
`endsprite`; models the inner `while` of `evaluate_sprites`, which scans
from the sprite declaration (itself never equal to `endsprite`, as it
starts with `sprite`) and errors at end of input. -/
def findEnd : List Str → Option Nat
  | [] => none
  | l :: rest => if l == S ("endsprite") then some 0 else (findEnd rest).map (· + 1)

/-- The scanning loop of `evaluate_sprites`, accumulating the buffered
changes and removals.  The loop index strictly increases each iteration,
so fuel `lines.length + 1` can never run out (the `panicked` fallback is
unreachable); structural recursion on fuel keeps the definition
kernel-computable. -/
def spriteLoopF (lines : List Str) :
    Nat → Nat → List (Nat × Str) → List Nat →
      PRes PreprocessingError (List (Nat × Str) × List Nat)
  | 0, _, _, _ => .panicked
  | fuel + 1, i, ch, rm =>
    match lines.get? i with
    | none => .ok (ch, rm)
    | some cur =>
      if startsWith (S ("sprite")) cur then
        let tokens := splitWhitespace cur
        if tokens.length < 2 then .err (.TooFewSpriteArgs cur)
        else if tokens.length > 2 then .err (.TooManySpriteArgs cur)
        else
          match findEnd (lines.drop (i + 1)) with
          | none => .err (.UnclosedSprite cur)
          | some k =>
            let stop := i + 1 + k
            if stop - i > 16 then .err (.OversizedSprite cur)
            else
              match process_sprite lines i stop with
              | .panicked => .panicked
              | .err e => .err e
              | .ok (ch2, rm2) =>
                spriteLoopF lines fuel (stop + 1) (ch ++ ch2) (rm ++ rm2)
      else spriteLoopF lines fuel (i + 1) ch rm

/-- Apply the buffered removals: `lines.remove(index - i)` for the i-th
removal index, exactly as the final loop of `evaluate_sprites` does. -/
def removeShifted : List Str → List Nat → Nat → List Str
  | ls, [], _ => ls
  | ls, idx :: rest, k => removeShifted (ls.eraseIdx (idx - k)) rest (k + 1)

/-- `evaluate_sprites` from src/preprocess.rs: scan for sprite blocks,
then apply the buffered in-place changes and the index-shifted removals. -/
def evaluate_sprites (lines : List Str) :
    PRes PreprocessingError (List Str) :=
  match spriteLoopF lines (lines.length + 1) 0 [] [] with
  | .panicked => .panicked
  | .err e => .err e
  | .ok (ch, rm) =>
    .ok (removeShifted (ch.foldl (fun acc p => acc.set p.1 p.2) lines) rm 0)

/-- The declaration-collecting loop of `evaluate_labels`: `i` is the index
of the current line, `removed` the number of label declarations seen so
far; a valid label at index `i` maps to `(i - removed) * 2 + 0x200`. -/
def labelScan : List Str → Nat → Nat → List (Str × Nat) →
    Except PreprocessingError (List (Str × Nat))
  | [], _, _, m => .ok m
  | l :: rest, i, removed, m =>
    if endsWithChar ':' l then
      let label := trimEndMatches ':' l
      if label.any isWs then .error (.InvalidLabel l)
      else if RESERVED_WORDS.contains label then .error (.ReservedLabel l)
      else if (m.lookup label).isSome then .error (.ReusedLabel l)
      else labelScan rest (i + 1) (removed + 1) ((label, (i - removed) * 2 + 0x200) :: m)
    else labelScan rest (i + 1) removed m

/-- The substitution step of `evaluate_labels` on one line: a token whose
comma-trimmed form is a declared label becomes ` 0x` plus the lowercase
hex address; other tokens are re-emitted with a leading space.  The
rebuilt line is NOT trimmed (unlike the alias pass), so it starts with a
space. -/
def labelApply (m : List (Str × Nat)) (l : Str) : Str :=
  let toks := splitWhitespace l
  if toks.any (fun t => (m.lookup (trimEndMatches ',' t)).isSome) then
    toks.foldl
      (fun acc t =>
        match m.lookup (trimEndMatches ',' t) with
        | some addr => acc ++ (' ' :: (S ("0x") ++ natToHexLo addr))
        | none => acc ++ (' ' :: t))
      []
  else l

/-- `evaluate_labels` from src/preprocess.rs: collect and remove label
declarations, then substitute addresses for label references. -/
def evaluate_labels (lines : List Str) :
    Except PreprocessingError (List Str) :=
  match labelScan lines 0 0 [] with
  | .error e => .error e
  | .ok m =>
    .ok (((lines.filter (fun l => !(endsWithChar ':' l))).map (labelApply m)))

/-- One line of the offset scan in `evaluate_memory_offsets`: `none` when
the line has no `#`; otherwise the replacement (prefix, decimal value of
`used_memory + offset`, and the tail after the separating character — the
character at the end of the digit run is dropped, and the tail is dropped
entirely when the digit run reaches the last character) or an
`InvalidOffset` error. -/
def offsetProcessLine (used : Nat) (line : Str) :
    Option (Except PreprocessingError Str) :=
  match idxOfChar '#' line with
  | none => none
  | some index =>
    let start := index + 1
    let stop := start + ((line.drop start).takeWhile (fun c => !(isWs c))).length
    if start ≥ line.length then some (.error (.InvalidOffset line))
    else
      match parseUsize ((line.drop start).take (stop - start)) with
      | none => some (.error (.InvalidOffset line))
      | some offset =>
        let repl := line.take index ++ natToDec (used + offset) ++
          (if stop < line.length - 1 then line.drop (stop + 1) else [])
        some (.ok repl)

/-- One full pass over the lines in `evaluate_memory_offsets`: process
every line, abort at the first error, report whether any `#` was found. -/
def offsetScanAux (used : Nat) : List Str →
    Except PreprocessingError (List Str × Bool)
  | [] => .ok ([], false)
  | l :: rest =>
    match offsetProcessLine used l with
    | none =>
      match offsetScanAux used rest with
      | .error e => .error e
      | .ok (ls, f) => .ok (l :: ls, f)
    | some (.error e) => .error e
    | some (.ok r) =>
      match offsetScanAux used rest with
      | .error e => .error e
      | .ok (ls, _) => .ok (r :: ls, true)

/-- Total number of `#` characters across the lines: the quantity that
strictly decreases at every productive iteration of the offset loop. -/
def totalHash (ls : List Str) : Nat := (ls.map (fun l => l.count '#')).sum

/-- The `while found_changes` loop of `evaluate_memory_offsets`.  Fuel
`totalHash lines + 1` always suffices because every pass that finds a
marker strictly decreases `totalHash` (see `offsetScan_decreases`); the
`panicked` fallback is unreachable. -/
def offsetLoopF (used : Nat) : Nat → List Str → PRes PreprocessingError (List Str)
  | 0, _ => .panicked
  | fuel + 1, lines =>
    match offsetScanAux used lines with
    | .error e => .err e
    | .ok (lines', found) =>
      if found then offsetLoopF used fuel lines' else .ok lines

/-- `evaluate_memory_offsets` from src/preprocess.rs.  NOTE: the source
literally computes `used_memory = 2 * lines.len()` — without the `0x200`
load base — and `lines` here still contains the label declaration lines,
since the label pass runs afterwards. -/
def evaluate_memory_offsets (lines : List Str) :
    PRes PreprocessingError (List Str) :=
  let used := 2 * lines.length
  offsetLoopF used (totalHash lines + 1) lines

/-- `preprocess` from src/preprocess.rs: clean the input and run the four
passes in order (aliases, sprites, offsets, labels). -/
def preprocess (input : Str) : PRes PreprocessingError (List Str) :=
  match evaluate_aliases (clean input) with
  | .error e => .err e
  | .ok l1 =>
    match evaluate_sprites l1 with
    | .panicked => .panicked
    | .err e => .err e
    | .ok l2 =>
      match evaluate_memory_offsets l2 with
      | .panicked => .panicked
      | .err e => .err e
      | .ok l3 =>
        match evaluate_labels l3 with
        | .error e => .err e
        | .ok l4 => .ok l4


/-- Apply a case mask to a word: `true` selects the uppercase letter,
`false` the lowercase one; masks of length n enumerate all case variants
of an n-letter mnemonic. -/
def applyCase (bs : List Bool) (s : Str) : Str :=
  List.zipWith (fun b c => if b then c.toUpper else c.toLower) bs s

/-! ## Claim theorems -/

/-- C1: the claim says a well-formed `DRW Vx, Vy, n` line encodes to
`0xD000 + (x << 8) + (y << 4) + n` (pattern `Dxyn`).  The code instead
uses the base `0xC000`: `DRW V1, V2, 0x3` encodes to `0xC123`, not
`0xD123` — colliding with `RND V1, 0x23`.  This contradicts the source's
own comment (`DRW Vx, Vy, nibble - Dxyn`), so it is a bug in the code. -/
theorem C1_drw_emits_C000 :
    assemble_instruction (S ("DRW V1, V2, 0x3")) = .ok 0xC123 ∧
    assemble_instruction (S ("DRW V1, V2, 0x3")) ≠ .ok 0xD123 ∧
    assemble_instruction (S ("RND V1, 0x23")) = .ok 0xC123 := by
  refine ⟨by decide, by decide, by decide⟩

/-- C2: the claim says each `#N` marker is replaced by the decimal string
of `0x200 + 2 × final_line_count + N` with the rest of the line preserved.
The code computes `used_memory = 2 * lines.len()` without the `0x200`
base: on the single line `LD I, #0` it produces `LD I, 2`, not
`LD I, 514`.  (The separating character after the digit run is also
dropped: `LD I, #0 V1` becomes `LD I, 2V1`.)  The `0x200` base is clearly
the intent — labels in the same file resolve to `0x200 + 2 × position`,
and the marker is documented as a free-memory address past the program
loaded at `0x200` — so this is a bug in the code. -/
theorem C2_offset_missing_base :
    evaluate_memory_offsets [S ("LD I, #0")] = .ok [S ("LD I, 2")] ∧
    evaluate_memory_offsets [S ("LD I, #0")] ≠ .ok [S ("LD I, 514")] ∧
    evaluate_memory_offsets [S ("LD I, #0 V1")] = .ok [S ("LD I, 2V1")] := by
  refine ⟨by decide, by decide, by decide⟩

/-- C3 (counterexample): the claim says every case variant of every
mnemonic dispatches identically, naming `cls`, `Call`, `cAll`, `Sknp`,
`Subn`.  Exactly those spellings are absent from the source's `match`
arms and fall through to `UnknownOp`, unlike their canonical spellings. -/
theorem C3_case_counterexample :
    assemble_instruction (S ("CLS")) = .ok 0x00E0 ∧
    assemble_instruction (S ("cls")) = .err .UnknownOp ∧
    assemble_instruction (S ("CALL 0x300")) = .ok 0x2300 ∧
    assemble_instruction (S ("Call 0x300")) = .err .UnknownOp ∧
    assemble_instruction (S ("cAll 0x300")) = .err .UnknownOp ∧
    assemble_instruction (S ("SKNP V4")) = .ok 0xE4A1 ∧
    assemble_instruction (S ("Sknp V4")) = .err .UnknownOp ∧
    assemble_instruction (S ("SUBN V1, V2")) = .ok 0x8127 ∧
    assemble_instruction (S ("Subn V1, V2")) = .err .UnknownOp := by
  refine ⟨by decide, by decide, by decide, by decide, by decide, by decide,
    by decide, by decide, by decide⟩

/-- C4: the claim says a `JP` line with a correct operand count whose
operand kinds do not match an accepted shape returns `InvalidArg` and
does not panic, in particular `JP V3`.  The code's one-operand arm calls
`parse_valid_addr` on the argument without checking that it is numeric,
and `parse_valid_addr` panics on a `Register` — so `JP V3` panics instead
of returning `InvalidArg`.  The source's sibling handlers (`SYS`, `CALL`)
guard with `if let Numeric`, and the panic message itself calls this a
caller bug, so the uniform-`InvalidArg` policy is the intent and the code
is in error.  The other three behaviours the claim lists are as stated. -/
theorem C4_jp_panics_on_register_operand :
    assemble_instruction (S ("JP V3")) = .panicked ∧
    assemble_instruction (S ("JP 0x300")) = .ok 0x1300 ∧
    assemble_instruction (S ("JP V0, 0x300")) = .ok 0xB300 ∧
    assemble_instruction (S ("JP V1, 0x300")) = .err .InvalidArg := by
  refine ⟨by decide, by decide, by decide, by decide⟩

/-- C5: the claim says `CLS` or `RET` followed by further tokens returns
`ExtraArgs`.  The code returns the opcode unconditionally — the arms
`"CLS" => Ok(0x00E0)` and `"RET" => Ok(0x00EE)` never look at the
remaining tokens, and the source's own TODO comment (`check for too many
args on cls and ret`) records the missing check — so the claim reflects
the intent and the code is in error. -/
theorem C5_cls_ret_ignore_extra_args :
    assemble_instruction (S ("CLS V0")) = .ok 0x00E0 ∧
    assemble_instruction (S ("RET V0, V1")) = .ok 0x00EE ∧
    assemble_instruction (S ("CLS V0")) ≠ .err .ExtraArgs ∧
    assemble_instruction (S ("RET V0, V1")) ≠ .err .ExtraArgs := by
  refine ⟨by decide, by decide, by decide, by decide⟩

/-- C6 (counterexample): the claim says a `V`-prefixed token of length 2
whose second character is not a hex digit yields `InvalidRegister`.  The
code only returns `InvalidRegister` for a wrong length; a non-hex second
character flows into `u8::from_str_radix`, whose failure surfaces as the
`NumberParsing` (`NotANumber`) error: `VG` is rejected with `NotANumber`,
not `InvalidRegister`. -/
theorem C6_vg_counterexample :
    parse_asm_arg (S ("VG")) = .error (.NotANumber (S ("VG"))) ∧
    parse_asm_arg (S ("VG")) ≠ .error (.InvalidRegister (S ("VG"))) := by
  refine ⟨by decide, by decide⟩

/-- C7 (counterexample): the claim says alias or label names equal to the
keywords `sprite` / `endsprite` are rejected with `ReservedAlias` /
`ReservedLabel`.  The source's `RESERVED_WORDS` contains only the 20
mnemonics and `alias`: an alias named `sprite` or `endsprite` and a label
named `sprite` or `endsprite` are all accepted. -/
theorem C7_sprite_not_reserved :
    preprocess (S ("alias sprite V0")) = .ok [] ∧
    preprocess (S ("endsprite:")) = .ok [] ∧
    evaluate_aliases [S ("alias endsprite V9")] = .ok [] ∧
    evaluate_labels [S ("sprite:")] = .ok [] := by
  refine ⟨by decide, by decide, by decide, by decide⟩

/-- C9 (counterexample): the claim says `start:` followed by `JP start`
preprocesses to the line `JP 0x200`.  The label pass rebuilds changed
lines with a leading space per token and, unlike the alias pass, never
trims the result: the actual output line is ` JP 0x200`. -/
theorem C9_label_rewrite_leading_space :
    preprocess (S ("start:\nJP start")) = .ok [S (" JP 0x200")] ∧
    S (" JP 0x200") ≠ S ("JP 0x200") := by
  refine ⟨by decide, by decide⟩

/-! ## Termination of the offset pass (claim C10) -/

/-- Every character produced by `digitsAux` is the image of a digit value
below the base. -/
theorem digitsAux_mem (b : Nat) (hb : 0 < b) (f : Nat → Char) :
    ∀ fuel n c, c ∈ digitsAux b f fuel n → ∃ d, d < b ∧ c = f d := by
  intro fuel
  induction fuel with
  | zero => intro n c hc; simp [digitsAux] at hc
  | succ fuel ih =>
    intro n c hc
    by_cases hn : n < b
    · simp [digitsAux, hn] at hc
      exact ⟨n, hn, hc⟩
    · simp only [digitsAux, if_neg hn, List.mem_append, List.mem_singleton] at hc
      rcases hc with hc | hc
      · exact ih _ _ hc
      · exact ⟨n % b, Nat.mod_lt _ hb, hc⟩

/-- Decimal renderings never contain a `#`. -/
theorem natToDec_count_hash (n : Nat) : (natToDec n).count '#' = 0 := by
  rw [List.count_eq_zero]
  intro hmem
  obtain ⟨d, hd, hc⟩ := digitsAux_mem 10 (by omega) decChar (n + 1) n '#' hmem
  interval_cases d <;> simp [decChar] at hc

/-- `idxOfChar` finds the first occurrence: the prefix before it is free
of the character and the suffix starts with it. -/
theorem idxOfChar_spec (c : Char) :
    ∀ (l : Str) (i : Nat), idxOfChar c l = some i →
      (l.take i).count c = 0 ∧ l.drop i = c :: l.drop (i + 1) := by
  intro l
  induction l with
  | nil => intro i h; simp [idxOfChar] at h
  | cons x rest ih =>
    intro i h
    simp only [idxOfChar] at h
    by_cases hx : x = c
    · rw [if_pos (by simp [hx])] at h
      injection h with h0
      subst h0
      simp [hx]
    · rw [if_neg (by simp [hx])] at h
      obtain ⟨j, hj, hij⟩ := Option.map_eq_some'.mp h
      subst hij
      obtain ⟨h1, h2⟩ := ih j hj
      constructor
      · rw [List.take_succ_cons, List.count_cons, h1]
        simp [hx]
      · simpa using h2

/-- The count of a character in a list decomposed at the first occurrence
found by `idxOfChar`. -/
theorem count_of_idxOfChar (c : Char) (l : Str) (i : Nat)
    (h : idxOfChar c l = some i) :
    l.count c = 1 + (l.drop (i + 1)).count c := by
  obtain ⟨h1, h2⟩ := idxOfChar_spec c l i h
  conv_lhs => rw [← List.take_append_drop i l]
  rw [List.count_append, h1, h2, List.count_cons]
  simp
  omega

/-- Dropping more of a list cannot increase a character count. -/
theorem count_drop_mono (l : Str) (c : Char) (m n : Nat) (h : m ≤ n) :
    (l.drop n).count c ≤ (l.drop m).count c := by
  have he : (l.drop m).drop (n - m) = l.drop n := by
    rw [List.drop_drop]
    congr 1
    omega
  rw [← he]
  exact (List.drop_sublist (n - m) (l.drop m)).count_le c

/-- A successful single-line replacement in the offset pass strictly
decreases that line's `#` count. -/
theorem offsetProcessLine_count (used : Nat) (l r : Str)
    (h : offsetProcessLine used l = some (.ok r)) :
    r.count '#' < l.count '#' := by
  unfold offsetProcessLine at h
  cases hidx : idxOfChar '#' l with
  | none => rw [hidx] at h; simp at h
  | some index =>
    rw [hidx] at h
    simp only at h
    split at h
    · simp at h
    · split at h
      · simp at h
      · simp only [Option.some.injEq, Except.ok.injEq] at h
        subst h
        have hcl := count_of_idxOfChar '#' l index hidx
        have htake : (l.take index).count '#' = 0 := (idxOfChar_spec '#' l index hidx).1
        rw [List.count_append, List.count_append, htake, natToDec_count_hash]
        split
        · have hle : (l.drop (index + 1 +
              ((l.drop (index + 1)).takeWhile (fun c => !(isWs c))).length + 1)).count '#' ≤
              (l.drop (index + 1)).count '#' := count_drop_mono l '#' _ _ (by omega)
          omega
        · simp only [List.count_nil]
          omega

/-- Error results of a single line of the offset pass are always
`InvalidOffset` carrying that line. -/
theorem offsetProcessLine_err (used : Nat) (l : Str) (e : PreprocessingError)
    (h : offsetProcessLine used l = some (.error e)) :
    e = .InvalidOffset l := by
  unfold offsetProcessLine at h
  cases hidx : idxOfChar '#' l with
  | none => rw [hidx] at h; simp at h
  | some index =>
    rw [hidx] at h
    simp only at h
    split at h
    · injection h with h2
      injection h2 with h3
      exact h3.symm
    · split at h
      · injection h with h2
        injection h2 with h3
        exact h3.symm
      · simp at h

/-- `totalHash` on a cons cell. -/
theorem totalHash_cons (l : Str) (ls : List Str) :
    totalHash (l :: ls) = l.count '#' + totalHash ls := by
  simp [totalHash]

/-- The combined behaviour of one scan pass of the offset loop: the hash
count never grows; a pass that found a marker strictly decreases it; a
pass that found none leaves the lines untouched. -/
theorem offsetScanAux_spec (used : Nat) :
    ∀ (ls ls' : List Str) (f : Bool), offsetScanAux used ls = .ok (ls', f) →
      totalHash ls' ≤ totalHash ls ∧
      (f = true → totalHash ls' < totalHash ls) ∧
      (f = false → ls' = ls) := by
  intro ls
  induction ls with
  | nil =>
    intro ls' f h
    simp only [offsetScanAux, Except.ok.injEq, Prod.mk.injEq] at h
    obtain ⟨h1, h2⟩ := h
    subst h1; subst h2
    simp
  | cons l rest ih =>
    intro ls' f h
    unfold offsetScanAux at h
    cases hpl : offsetProcessLine used l with
    | none =>
      rw [hpl] at h
      cases hrec : offsetScanAux used rest with
      | error e => rw [hrec] at h; simp at h
      | ok p =>
        rw [hrec] at h
        obtain ⟨ls0, f0⟩ := p
        simp only [Except.ok.injEq, Prod.mk.injEq] at h
        obtain ⟨h1, h2⟩ := h
        subst h1; subst h2
        obtain ⟨ihle, ihlt, ihfix⟩ := ih ls0 f0 hrec
        refine ⟨?_, ?_, ?_⟩
        · rw [totalHash_cons, totalHash_cons]; omega
        · intro hf; have := ihlt hf; rw [totalHash_cons, totalHash_cons]; omega
        · intro hf; rw [ihfix hf]
    | some res =>
      cases res with
      | error e => rw [hpl] at h; simp at h
      | ok r =>
        rw [hpl] at h
        cases hrec : offsetScanAux used rest with
        | error e => rw [hrec] at h; simp at h
        | ok p =>
          rw [hrec] at h
          obtain ⟨ls0, f0⟩ := p
          simp only [Except.ok.injEq, Prod.mk.injEq] at h
          obtain ⟨h1, h2⟩ := h
          subst h1
          obtain ⟨ihle, _, _⟩ := ih ls0 f0 hrec
          have hlt := offsetProcessLine_count used l r hpl
          refine ⟨?_, ?_, ?_⟩
          · rw [totalHash_cons, totalHash_cons]; omega
          · intro _; rw [totalHash_cons, totalHash_cons]; omega
          · intro hf; rw [hf] at h2; cases h2

/-- Error results of a full scan pass are always `InvalidOffset`. -/
theorem offsetScanAux_err (used : Nat) :
    ∀ (ls : List Str) (e : PreprocessingError), offsetScanAux used ls = .error e →
      ∃ l, e = .InvalidOffset l := by
  intro ls
  induction ls with
  | nil => intro e h; simp [offsetScanAux] at h
  | cons l rest ih =>
    intro e h
    unfold offsetScanAux at h
    cases hpl : offsetProcessLine used l with
    | none =>
      rw [hpl] at h
      cases hrec : offsetScanAux used rest with
      | error e0 =>
        rw [hrec] at h
        injection h with h0
        subst h0
        exact ih e0 hrec
      | ok p => rw [hrec] at h; simp at h
    | some res =>
      cases res with
      | error e0 =>
        rw [hpl] at h
        injection h with h0
        subst h0
        exact ⟨l, offsetProcessLine_err used l e0 hpl⟩
      | ok r =>
        rw [hpl] at h
        cases hrec : offsetScanAux used rest with
        | error e0 =>
          rw [hrec] at h
          injection h with h0
          subst h0
          exact ih e0 hrec
        | ok p => rw [hrec] at h; simp at h

/-- C10: each pass of the outer loop of `evaluate_memory_offsets` over the
line list either fails with an `InvalidOffset` error, or finds no marker
(and the loop exits with the lines unchanged), or strictly decreases the
total number of `#` characters across all lines — so the loop cannot run
forever.  Confirms the claim. -/
theorem C10_offset_loop_terminates (used : Nat) (lines : List Str) :
    (∃ badLine, offsetScanAux used lines = .error (.InvalidOffset badLine)) ∨
    offsetScanAux used lines = .ok (lines, false) ∨
    (∃ lines', offsetScanAux used lines = .ok (lines', true) ∧
      totalHash lines' < totalHash lines) := by
  cases hscan : offsetScanAux used lines with
  | error e =>
    obtain ⟨l, he⟩ := offsetScanAux_err used lines e hscan
    exact Or.inl ⟨l, by rw [he]⟩
  | ok p =>
    obtain ⟨ls', f⟩ := p
    obtain ⟨hle, hlt, hfix⟩ := offsetScanAux_spec used lines ls' f hscan
    cases f with
    | false => exact Or.inr (Or.inl (by rw [hfix rfl]))
    | true => exact Or.inr (Or.inr ⟨ls', rfl, hlt rfl⟩)

/-- The fuel `totalHash lines + 1` given to `offsetLoopF` by
`evaluate_memory_offsets` always suffices: the model never hits the
fuel-exhaustion fallback, matching the fact that the Rust loop always
terminates normally. -/
theorem offsetLoopF_no_fuel_out (used : Nat) :
    ∀ (fuel : Nat) (lines : List Str), totalHash lines < fuel →
      offsetLoopF used fuel lines ≠ .panicked := by
  intro fuel
  induction fuel with
  | zero => intro lines h; omega
  | succ fuel ih =>
    intro lines h
    unfold offsetLoopF
    cases hscan : offsetScanAux used lines with
    | error e => simp
    | ok p =>
      obtain ⟨ls', f⟩ := p
      obtain ⟨hle, hlt, hfix⟩ := offsetScanAux_spec used lines ls' f hscan
      cases f with
      | false => simp
      | true =>
        simp only [if_pos rfl]
        exact ih ls' (by have := hlt rfl; omega)

/-- `evaluate_memory_offsets` never panics (its fuel is sufficient). -/
theorem evaluate_memory_offsets_total (lines : List Str) :
    evaluate_memory_offsets lines ≠ .panicked :=
  offsetLoopF_no_fuel_out (2 * lines.length) (totalHash lines + 1) lines (by omega)

/-! ## Case sensitivity of mnemonic dispatch (claim C3) -/

set_option maxHeartbeats 40000000 in
/-- C3 (amended): mnemonic dispatch is case-insensitive exactly for the
mnemonics whose `match` arms enumerate every variant — `JP`, `LD`, `SE`,
`OR` (all 4 variants) and `SYS`, `SNE`, `ADD`, `AND`, `XOR`, `SUB`,
`SHR`, `SHL`, `RND`, `DRW`, `SKP` (all 8 variants): every case variant of
these dispatches to the same handler with the same result as the
canonical uppercase spelling, for every argument list.  `CLS` and `RET`
match only their all-uppercase spelling, and `CALL`, `SUBN`, `SKNP` only
their all-uppercase and all-lowercase spellings; every other case variant
of these five falls through to `UnknownOp`. -/
theorem C3_case_dispatch (b1 b2 b3 b4 : Bool) (ts : List Str) :
    (dispatchOp (applyCase [b1, b2] (S ("jp"))) (applyCase [b1, b2] (S ("jp")) :: ts) =
      dispatchOp (S ("JP")) (S ("JP") :: ts)) ∧
    (dispatchOp (applyCase [b1, b2] (S ("ld"))) (applyCase [b1, b2] (S ("ld")) :: ts) =
      dispatchOp (S ("LD")) (S ("LD") :: ts)) ∧
    (dispatchOp (applyCase [b1, b2] (S ("se"))) (applyCase [b1, b2] (S ("se")) :: ts) =
      dispatchOp (S ("SE")) (S ("SE") :: ts)) ∧
    (dispatchOp (applyCase [b1, b2] (S ("or"))) (applyCase [b1, b2] (S ("or")) :: ts) =
      dispatchOp (S ("OR")) (S ("OR") :: ts)) ∧
    (dispatchOp (applyCase [b1, b2, b3] (S ("sys")))
        (applyCase [b1, b2, b3] (S ("sys")) :: ts) =
      dispatchOp (S ("SYS")) (S ("SYS") :: ts)) ∧
    (dispatchOp (applyCase [b1, b2, b3] (S ("sne")))
        (applyCase [b1, b2, b3] (S ("sne")) :: ts) =
      dispatchOp (S ("SNE")) (S ("SNE") :: ts)) ∧
    (dispatchOp (applyCase [b1, b2, b3] (S ("add")))
        (applyCase [b1, b2, b3] (S ("add")) :: ts) =
      dispatchOp (S ("ADD")) (S ("ADD") :: ts)) ∧
    (dispatchOp (applyCase [b1, b2, b3] (S ("and")))
        (applyCase [b1, b2, b3] (S ("and")) :: ts) =
      dispatchOp (S ("AND")) (S ("AND") :: ts)) ∧
    (dispatchOp (applyCase [b1, b2, b3] (S ("xor")))
        (applyCase [b1, b2, b3] (S ("xor")) :: ts) =
      dispatchOp (S ("XOR")) (S ("XOR") :: ts)) ∧
    (dispatchOp (applyCase [b1, b2, b3] (S ("sub")))
        (applyCase [b1, b2, b3] (S ("sub")) :: ts) =
      dispatchOp (S ("SUB")) (S ("SUB") :: ts)) ∧
    (dispatchOp (applyCase [b1, b2, b3] (S ("shr")))
        (applyCase [b1, b2, b3] (S ("shr")) :: ts) =
      dispatchOp (S ("SHR")) (S ("SHR") :: ts)) ∧
    (dispatchOp (applyCase [b1, b2, b3] (S ("shl")))
        (applyCase [b1, b2, b3] (S ("shl")) :: ts) =
      dispatchOp (S ("SHL")) (S ("SHL") :: ts)) ∧
    (dispatchOp (applyCase [b1, b2, b3] (S ("rnd")))
        (applyCase [b1, b2, b3] (S ("rnd")) :: ts) =
      dispatchOp (S ("RND")) (S ("RND") :: ts)) ∧
    (dispatchOp (applyCase [b1, b2, b3] (S ("drw")))
        (applyCase [b1, b2, b3] (S ("drw")) :: ts) =
      dispatchOp (S ("DRW")) (S ("DRW") :: ts)) ∧
    (dispatchOp (applyCase [b1, b2, b3] (S ("skp")))
        (applyCase [b1, b2, b3] (S ("skp")) :: ts) =
      dispatchOp (S ("SKP")) (S ("SKP") :: ts)) ∧
    (dispatchOp (applyCase [b1, b2, b3] (S ("cls")))
        (applyCase [b1, b2, b3] (S ("cls")) :: ts) =
      if b1 && b2 && b3 then .ok 0x00E0 else .err .UnknownOp) ∧
    (dispatchOp (applyCase [b1, b2, b3] (S ("ret")))
        (applyCase [b1, b2, b3] (S ("ret")) :: ts) =
      if b1 && b2 && b3 then .ok 0x00EE else .err .UnknownOp) ∧
    (dispatchOp (applyCase [b1, b2, b3, b4] (S ("call")))
        (applyCase [b1, b2, b3, b4] (S ("call")) :: ts) =
      if (b1 && b2 && b3 && b4) || (!b1 && !b2 && !b3 && !b4) then
        dispatchOp (S ("CALL")) (S ("CALL") :: ts)
      else .err .UnknownOp) ∧
    (dispatchOp (applyCase [b1, b2, b3, b4] (S ("subn")))
        (applyCase [b1, b2, b3, b4] (S ("subn")) :: ts) =
      if (b1 && b2 && b3 && b4) || (!b1 && !b2 && !b3 && !b4) then
        dispatchOp (S ("SUBN")) (S ("SUBN") :: ts)
      else .err .UnknownOp) ∧
    (dispatchOp (applyCase [b1, b2, b3, b4] (S ("sknp")))
        (applyCase [b1, b2, b3, b4] (S ("sknp")) :: ts) =
      if (b1 && b2 && b3 && b4) || (!b1 && !b2 && !b3 && !b4) then
        dispatchOp (S ("SKNP")) (S ("SKNP") :: ts)
      else .err .UnknownOp) := by
  cases b1 <;> cases b2 <;> cases b3 <;> cases b4 <;>
    exact ⟨rfl, rfl, rfl, rfl, rfl, rfl, rfl, rfl, rfl, rfl, rfl, rfl, rfl,
      rfl, rfl, rfl, rfl, rfl, rfl, rfl⟩

/-! ## Register token parsing (claim C6) -/

/-- C6 (amended): for a token beginning with `V`/`v`: any byte length
other than 2 yields `InvalidRegister`; at byte length 2, a hexadecimal
second character yields `Register` with its value, and a non-hex second
character yields the `NumberParsing` (`NotANumber`) error — not
`InvalidRegister`.  In particular all 64 spellings of `V0`..`VF` (either
case of `V`, either case of the hex digit) parse to the matching nibble. -/
theorem C6_register_parse (arg : Str)
    (h : arg.head? = some 'V' ∨ arg.head? = some 'v') :
    (utf8Len arg ≠ 2 → parse_numeric_asm_arg arg = .error (.InvalidRegister arg)) ∧
    (∀ c : Char, arg.get? 1 = some c → utf8Len arg = 2 →
      (∀ d : Nat, hexVal c = some d →
        parse_numeric_asm_arg arg = .ok (.Register d)) ∧
      (hexVal c = none →
        parse_numeric_asm_arg arg = .error (.NotANumber arg))) ∧
    ((List.range 16).all (fun n =>
      (parse_asm_arg ('V' :: [hexUpChar n]) == .ok (.Register n)) &&
      (parse_asm_arg ('v' :: [hexUpChar n]) == .ok (.Register n)) &&
      (parse_asm_arg ('V' :: [hexLoChar n]) == .ok (.Register n)) &&
      (parse_asm_arg ('v' :: [hexLoChar n]) == .ok (.Register n))) = true) := by
  have hcond : (arg.head? == some 'V' || arg.head? == some 'v') = true := by
    rcases h with h | h <;> simp [h]
  refine ⟨?_, ?_, by decide⟩
  · intro hlen
    unfold parse_numeric_asm_arg
    rw [if_pos hcond, if_pos hlen]
  · intro c hget hlen
    constructor
    · intro d hd
      unfold parse_numeric_asm_arg
      rw [if_pos hcond, if_neg (by omega), hget]
      simp [hd]
    · intro hnone
      unfold parse_numeric_asm_arg
      rw [if_pos hcond, if_neg (by omega), hget]
      simp [hnone]

/-- Witness for C6: the three behaviours at concrete tokens `V12`, `V3`
and `VG`. -/
theorem C6_register_parse_witness :
    parse_numeric_asm_arg (S ("V12")) = .error (.InvalidRegister (S ("V12"))) ∧
    parse_numeric_asm_arg (S ("V3")) = .ok (.Register 3) ∧
    parse_numeric_asm_arg (S ("VG")) = .error (.NotANumber (S ("VG"))) := by
  refine ⟨?_, ?_, ?_⟩
  · exact (C6_register_parse (S ("V12")) (Or.inl (by decide))).1 (by decide)
  · exact ((C6_register_parse (S ("V3")) (Or.inl (by decide))).2.1 '3'
      (by decide) (by decide)).1 3 (by decide)
  · exact ((C6_register_parse (S ("VG")) (Or.inl (by decide))).2.1 'G'
      (by decide) (by decide)).2 (by decide)

/-! ## Reserved words (claim C7) -/

set_option maxRecDepth 10000 in
/-- C7 (amended): every name in the fixed reserved set — the 20
architecture mnemonics plus `alias` — is rejected as an alias name
(`ReservedAlias`) and as a label name (`ReservedLabel`); but the keywords
`sprite` and `endsprite` are not in the set, and aliases or labels with
those names are accepted. -/
theorem C7_reserved_words (name : Str) (hmem : name ∈ RESERVED_WORDS) :
    evaluate_aliases [S ("alias ") ++ name ++ S (" V0")] =
      .error (.ReservedAlias (S ("alias ") ++ name ++ S (" V0"))) ∧
    evaluate_labels [name ++ [':']] =
      .error (.ReservedLabel (name ++ [':'])) ∧
    S ("sprite") ∉ RESERVED_WORDS ∧
    S ("endsprite") ∉ RESERVED_WORDS ∧
    evaluate_aliases [S ("alias sprite V0")] = .ok [] ∧
    evaluate_labels [S ("endsprite:")] = .ok [] := by
  fin_cases hmem <;>
    exact ⟨by decide, by decide, by decide, by decide, by decide, by decide⟩

/-- Witness for C7 at the reserved name `JP`. -/
theorem C7_reserved_words_witness :
    evaluate_aliases [S ("alias ") ++ S ("JP") ++ S (" V0")] =
      .error (.ReservedAlias (S ("alias ") ++ S ("JP") ++ S (" V0"))) ∧
    evaluate_labels [S ("JP") ++ [':']] =
      .error (.ReservedLabel (S ("JP") ++ [':'])) := by
  have h := C7_reserved_words (S ("JP")) (by decide)
  exact ⟨h.1, h.2.1⟩

/-! ## Sprite blocks (claim C8) -/

/-- The number of words produced by the pairing is the number of byte
pairs, rounded up: each word consumes two bytes and an odd trailing byte
still yields a word. -/
theorem pairRaws_length : ∀ bs : List Nat, (pairRaws bs).length = (bs.length + 1) / 2
  | [] => by simp [pairRaws]
  | [_] => by simp [pairRaws]
  | _ :: _ :: rest => by
    show (pairRaws rest).length + 1 = _
    rw [pairRaws_length rest]
    simp only [List.length_cons]
    omega

set_option maxRecDepth 10000 in
/-- C8: sprite data bytes are paired in order into big-endian 16-bit
words — the first byte of each pair is the high byte, and an odd trailing
byte becomes the high byte with `0x00` as the low byte — producing
`⌈bytes/2⌉` words; the declaration line becomes the label `NAME:` and
each word a standalone `0x`-prefixed raw line.  In particular the block
`sprite S / 0xFF / 0x0F / endsprite` becomes `S:` followed by `0xFF0F`,
and the odd-sized block `sprite T / 0xAB / endsprite` becomes `T:`
followed by `0xAB00`.  Confirms the claim. -/
theorem C8_sprite_pairing :
    (∀ (b1 b2 : Nat) (bs : List Nat),
      pairRaws (b1 :: b2 :: bs) = (b1 * 256 + b2) :: pairRaws bs) ∧
    (∀ b : Nat, pairRaws [b] = [b * 256 + 0]) ∧
    pairRaws [] = [] ∧
    (∀ bs : List Nat, (pairRaws bs).length = (bs.length + 1) / 2) ∧
    evaluate_sprites [S ("sprite S"), S ("0xFF"), S ("0x0F"), S ("endsprite")] =
      .ok [S ("S:"), S ("0xFF0F")] ∧
    evaluate_sprites [S ("sprite T"), S ("0xAB"), S ("endsprite")] =
      .ok [S ("T:"), S ("0xAB00")] := by
  exact ⟨fun _ _ _ => rfl, fun _ => rfl, rfl, pairRaws_length, by decide, by decide⟩

/-! ## Label addresses (claim C9) -/

/-- Entries already in the accumulator survive a successful label scan. -/
theorem labelScan_mono :
    ∀ (ls : List Str) (i r : Nat) (m m' : List (Str × Nat)),
      labelScan ls i r m = .ok m' → ∀ p, p ∈ m → p ∈ m' := by
  intro ls
  induction ls with
  | nil =>
    intro i r m m' h p hp
    simp only [labelScan, Except.ok.injEq] at h
    rw [← h]
    exact hp
  | cons hd rest ih =>
    intro i r m m' h p hp
    simp only [labelScan] at h
    split at h
    · split at h
      · cases h
      · split at h
        · cases h
        · split at h
          · cases h
          · exact ih _ _ _ _ h p (List.mem_cons_of_mem _ hp)
    · exact ih _ _ _ _ h p hp

/-- The address invariant of the label scan: starting from line index `i`
with `r` labels already removed (`r ≤ i`), a successful scan maps the
label at relative position `j` to
`((i - r) + #non-label lines before it) * 2 + 0x200`. -/
theorem labelScan_addr :
    ∀ (ls : List Str) (i r : Nat) (m m' : List (Str × Nat)), r ≤ i →
      labelScan ls i r m = .ok m' →
      ∀ (j : Nat) (l : Str), ls.get? j = some l → endsWithChar ':' l = true →
        (trimEndMatches ':' l,
          ((i - r) + ((ls.take j).filter (fun x => !(endsWithChar ':' x))).length)
            * 2 + 0x200) ∈ m' := by
  intro ls
  induction ls with
  | nil => intro i r m m' _ _ j l hget; simp at hget
  | cons hd rest ih =>
    intro i r m m' hri hscan j l hget hcolon
    cases j with
    | zero =>
      simp only [List.get?] at hget
      injection hget with hl
      subst hl
      simp only [labelScan, hcolon, if_true] at hscan
      split at hscan
      · cases hscan
      · split at hscan
        · cases hscan
        · split at hscan
          · cases hscan
          · refine labelScan_mono rest (i + 1) (r + 1) _ m' hscan _ ?_
            simp
    | succ j' =>
      simp only [List.get?] at hget
      simp only [labelScan] at hscan
      cases hhd : endsWithChar ':' hd with
      | false =>
        rw [hhd] at hscan
        simp only [Bool.false_eq_true, if_false] at hscan
        have hmem := ih (i + 1) r m m' (by omega) hscan j' l hget hcolon
        have harith : (i + 1 - r) +
            ((rest.take j').filter (fun x => !(endsWithChar ':' x))).length =
            (i - r) +
              (((rest.take j').filter (fun x => !(endsWithChar ':' x))).length + 1) := by
          omega
        rw [harith] at hmem
        simpa [List.take_succ_cons, List.filter_cons, hhd] using hmem
      | true =>
        rw [hhd] at hscan
        simp only [if_true] at hscan
        split at hscan
        · cases hscan
        · split at hscan
          · cases hscan
          · split at hscan
            · cases hscan
            · have hmem := ih (i + 1) (r + 1) _ m' (by omega) hscan j' l hget hcolon
              have harith : i + 1 - (r + 1) = i - r := by omega
              rw [harith] at hmem
              simpa [List.take_succ_cons, List.filter_cons, hhd] using hmem

/-- C9 (amended): `start:` followed by `JP start` preprocesses to the
single line ` JP 0x200` (leading space included), which still encodes to
`0x1200`; and in general a successful label scan assigns each label line
the address `0x200 + 2 × (number of non-label lines before it)`, i.e. its
position among the final non-label lines. -/
theorem C9_label_addresses :
    preprocess (S ("start:\nJP start")) = .ok [S (" JP 0x200")] ∧
    assemble_instruction (S (" JP 0x200")) = .ok 0x1200 ∧
    (∀ (lines : List Str) (m : List (Str × Nat)) (j : Nat) (l : Str),
      labelScan lines 0 0 [] = .ok m →
      lines.get? j = some l → endsWithChar ':' l = true →
      (trimEndMatches ':' l,
        0x200 + 2 * ((lines.take j).filter (fun x => !(endsWithChar ':' x))).length)
        ∈ m) := by
  refine ⟨by decide, by decide, ?_⟩
  intro lines m j l hscan hget hcolon
  have hmem := labelScan_addr lines 0 0 [] m (Nat.le_refl 0) hscan j l hget hcolon
  have harith :
      ((0 - 0) + ((lines.take j).filter (fun x => !(endsWithChar ':' x))).length)
        * 2 + 0x200 =
      0x200 + 2 * ((lines.take j).filter (fun x => !(endsWithChar ':' x))).length := by
    omega
  rw [harith] at hmem
  exact hmem

/-- Witness for C9's general part: the label `start:` in the two-line
program sits before zero non-label lines and gets address `0x200`. -/
theorem C9_label_addresses_witness :
    (trimEndMatches ':' (S ("start:")),
      0x200 + 2 * (([S ("start:"), S ("JP start")].take 0).filter
        (fun x => !(endsWithChar ':' x))).length) ∈ [(S ("start"), 0x200)] :=
  C9_label_addresses.2.2 [S ("start:"), S ("JP start")] [(S ("start"), 0x200)] 0
    (S ("start:")) (by decide) (by decide) (by decide)
